import Mathlib

/-!
Verification of the `StoppableReader` component of `pkg/audio/audio.go`
(`cobaltspeech/examples-go`).

The Go code wraps an `io.Reader` (the Source) with:
  * a Tee buffer recording every byte read (pruned when it grows past
    `bufferSizeFactor * maxBufferSize`),
  * a one-shot Stop latch making the next `Read` return `(0, io.EOF)`,
  * a `Rewind(offset, resetTimeZero)` operation installing a
    `MultiReader(snapshot-of-buffer-suffix, teeReader)` replay cursor,
  * a `Reset` restoring the pristine live-passthrough state.

Shallow embedding choices:
  * The Source is modelled as the list of bytes it has yet to produce; an
    `io.Reader.Read(p)` with `len(p) = n` returns `min n (length remaining)`
    bytes, and `(0, io.EOF)` exactly when the source is exhausted.
  * `currentReader` is represented by the `replay` list: the not-yet-consumed
    part of the `bytes.NewReader(buffer[adjustedOffset:])` snapshot of a
    `Rewind`.  An empty `replay` is live-passthrough (`io.MultiReader` skips
    an exhausted head reader within the same `Read` call, so the two states
    are observationally identical).
  * Errors returned by `Rewind` are an explicit enumeration; `nil` is `none`.
  * `maxBufferSize` is a `Nat`: §4 of the design requires a positive maximum
    history size at construction.  `bufferSizeFactor` is stored as the integer
    truncation `int(2.0) = 2` that the Go `Read` uses.
-/

namespace Audio

/-- Errors that `StoppableReader.Rewind` can return (Go returns `error`
values built with `fmt.Errorf`; we classify them by the branch that
produced them). -/
inductive RewindError where
  /-- error for `Rewind()` called twice without a `Reset()` in between. -/
  | doubleRewind : RewindError
  /-- requested offset is before the start of the (pruned) buffer. -/
  | dataLoss : RewindError
  /-- requested offset is past the end of the buffer (in the future). -/
  | invalidOffset : RewindError
deriving Repr, DecidableEq

/-- State of `StoppableReader` (audio.go lines 226-237) together with the
remaining bytes of the wrapped Source. -/
structure StoppableReader where
  /-- bytes the underlying original reader has yet to produce -/
  source : List Nat
  /-- field `buffer`: previously read bytes (the tee target) -/
  buffer : List Nat
  /-- field `bufferStartOffset`: the "actual" index at the start of the buffer -/
  bufferStartOffset : Int
  /-- field `maxBufferSize`: bytes stored before the buffer may be trimmed -/
  maxBufferSize : Nat
  /-- value `int(bufferSizeFactor)` as used by `Read` (the field is `float32 2.0`) -/
  bufferSizeFactor : Nat
  /-- remaining bytes of the rewind snapshot; `[]` means live-passthrough -/
  replay : List Nat
  /-- field `pauseRead`: the next `Read()` returns EOF -/
  pauseRead : Bool
  /-- field `rewindWithoutReset`: guard against two `Rewind()` without `Reset()` -/
  rewindWithoutReset : Bool
deriving Repr, DecidableEq

/-- Constructor `NewStoppableReader` (audio.go lines 241-252). -/
def NewStoppableReader (reader : List Nat) (maxBufferSize : Nat) : StoppableReader :=
  { source := reader
    buffer := []
    bufferStartOffset := 0
    maxBufferSize := maxBufferSize
    bufferSizeFactor := 2
    replay := []
    pauseRead := false
    rewindWithoutReset := false }

/-- The buffer-shrinking step at the top of `Read` (audio.go lines 263-268):
if the buffer is longer than `int(bufferSizeFactor)*maxBufferSize`, keep only
its last `maxBufferSize` bytes and advance `bufferStartOffset` by the number
of bytes dropped. -/
def StoppableReader.pruneIfNeeded (sr : StoppableReader) : StoppableReader :=
  if sr.buffer.length > sr.bufferSizeFactor * sr.maxBufferSize then
    { sr with
      buffer := sr.buffer.drop (sr.buffer.length - sr.maxBufferSize)
      bufferStartOffset :=
        sr.bufferStartOffset + ((sr.buffer.length - sr.maxBufferSize : Nat) : Int) }
  else
    sr

/-- Dispatch of `sr.currentReader.Read(p)` with `len(p) = n` (audio.go line 269):
either the `MultiReader` installed by `Rewind` (drain the snapshot first)
or the plain `TeeReader` (read from the source, appending to the buffer). -/
def StoppableReader.readCurrent (sr : StoppableReader) (n : Nat) :
    (List Nat × Bool) × StoppableReader :=
  if sr.replay ≠ [] then
    ((sr.replay.take n, false), { sr with replay := sr.replay.drop n })
  else if sr.source = [] then
    (([], true), sr)
  else
    ((sr.source.take n, false),
      { sr with
        source := sr.source.drop n
        buffer := sr.buffer ++ sr.source.take n })

/-- Operation `StoppableReader.Read` (audio.go lines 255-270).  `n` is the capacity of
the slice supplied by the caller; the returned pair is (bytes read, EOF?). -/
def StoppableReader.Read (sr : StoppableReader) (n : Nat) :
    (List Nat × Bool) × StoppableReader :=
  if sr.pauseRead then
    (([], true), { sr with pauseRead := false })
  else
    sr.pruneIfNeeded.readCurrent n

/-- Operation `StoppableReader.Stop` (audio.go lines 274-278). -/
def StoppableReader.Stop (sr : StoppableReader) : StoppableReader :=
  { sr with pauseRead := true }

/-- The `adjustedOffset` computed by `Rewind` in the branches that reach the
`partialBuffer` slice (audio.go lines 303-319): clamped to `0` when the
requested offset lies before the buffer start. -/
def StoppableReader.rewindAdjustedOffset (sr : StoppableReader) (offset : Int) : Int :=
  if offset < sr.bufferStartOffset then 0 else offset - sr.bufferStartOffset

/-- The tail of `Rewind` shared by the data-loss and in-range branches
(audio.go lines 320-334): install
`MultiReader(bytes.NewReader(buffer[adjustedOffset:]), appendReader)` and,
when `resetTimeZero`, set
`bufferStartOffset = -(adjustedOffset + buffer.Len() - adjustedOffset)`
(the Go formula, kept verbatim). -/
def StoppableReader.installCursor (sr : StoppableReader) (adjustedOffset : Int)
    (err : Option RewindError) (resetTimeZero : Bool) :
    Option RewindError × StoppableReader :=
  let sr1 := { sr with replay := sr.buffer.drop adjustedOffset.toNat }
  if resetTimeZero then
    (err, { sr1 with
      bufferStartOffset :=
        -(adjustedOffset + (sr1.buffer.length : Int) - adjustedOffset) })
  else
    (err, sr1)

/-- Operation `StoppableReader.Rewind` (audio.go lines 290-335). -/
def StoppableReader.Rewind (sr : StoppableReader) (offset : Int)
    (resetTimeZero : Bool) : Option RewindError × StoppableReader :=
  let err : Option RewindError :=
    if sr.rewindWithoutReset then some RewindError.doubleRewind else none
  let sr1 := { sr with rewindWithoutReset := true }
  if offset < sr1.bufferStartOffset then
    -- offset before the start of the buffer: data returned will be incomplete
    sr1.installCursor (sr1.rewindAdjustedOffset offset)
      (some RewindError.dataLoss) resetTimeZero
  else if offset > sr1.bufferStartOffset + sr1.buffer.length then
    -- offset after the end of the buffer: reset to the append reader and return
    (some RewindError.invalidOffset, { sr1 with replay := [] })
  else
    sr1.installCursor (sr1.rewindAdjustedOffset offset) err resetTimeZero

/-- Operation `StoppableReader.Reset` (audio.go lines 339-348). -/
def StoppableReader.Reset (sr : StoppableReader) : StoppableReader :=
  { sr with
    buffer := []
    replay := []
    bufferStartOffset := 0
    pauseRead := false
    rewindWithoutReset := false }

/-- Perform a sequence of `Read` calls with the given slice capacities,
returning the concatenation of all bytes read and the final state. -/
def readMany (sr : StoppableReader) : List Nat → List Nat × StoppableReader
  | [] => ([], sr)
  | n :: ns =>
    let r := sr.Read n
    let rest := readMany r.2 ns
    (r.1.1 ++ rest.1, rest.2)

/-- A single `Read` call directly against the bare Source (the reader the
`StoppableReader` wraps), with the same chunk semantics. -/
def sourceRead (src : List Nat) (n : Nat) : (List Nat × Bool) × List Nat :=
  if src = [] then (([], true), src) else ((src.take n, false), src.drop n)

/-- A sequence of `Read` calls directly against the bare Source. -/
def sourceReadMany (src : List Nat) : List Nat → List Nat × List Nat
  | [] => ([], src)
  | n :: ns =>
    let r := sourceRead src n
    let rest := sourceReadMany r.2 ns
    (r.1.1 ++ rest.1, rest.2)

/-- Repeatedly `Read` with slice capacity `n` until a read reports EOF (or
fuel runs out), returning all bytes read and the final state. -/
def drainFuel : Nat → StoppableReader → Nat → List Nat × StoppableReader
  | 0, sr, _ => ([], sr)
  | fuel + 1, sr, n =>
    let r := sr.Read n
    if r.1.2 then
      ([], r.2)
    else
      let rest := drainFuel fuel r.2 n
      (r.1.1 ++ rest.1, rest.2)

/-! ### Basic facts about the operations -/

@[simp] lemma pruneIfNeeded_source (sr : StoppableReader) :
    sr.pruneIfNeeded.source = sr.source := by
  unfold StoppableReader.pruneIfNeeded; split <;> rfl

@[simp] lemma pruneIfNeeded_replay (sr : StoppableReader) :
    sr.pruneIfNeeded.replay = sr.replay := by
  unfold StoppableReader.pruneIfNeeded; split <;> rfl

@[simp] lemma pruneIfNeeded_pauseRead (sr : StoppableReader) :
    sr.pruneIfNeeded.pauseRead = sr.pauseRead := by
  unfold StoppableReader.pruneIfNeeded; split <;> rfl

@[simp] lemma pruneIfNeeded_rewindWithoutReset (sr : StoppableReader) :
    sr.pruneIfNeeded.rewindWithoutReset = sr.rewindWithoutReset := by
  unfold StoppableReader.pruneIfNeeded; split <;> rfl

@[simp] lemma pruneIfNeeded_maxBufferSize (sr : StoppableReader) :
    sr.pruneIfNeeded.maxBufferSize = sr.maxBufferSize := by
  unfold StoppableReader.pruneIfNeeded; split <;> rfl

@[simp] lemma pruneIfNeeded_bufferSizeFactor (sr : StoppableReader) :
    sr.pruneIfNeeded.bufferSizeFactor = sr.bufferSizeFactor := by
  unfold StoppableReader.pruneIfNeeded; split <;> rfl

@[simp] lemma readCurrent_rewindWithoutReset (sr : StoppableReader) (n : Nat) :
    ((sr.readCurrent n).2).rewindWithoutReset = sr.rewindWithoutReset := by
  unfold StoppableReader.readCurrent; split <;> [rfl; (split <;> rfl)]

@[simp] lemma Read_rewindWithoutReset (sr : StoppableReader) (n : Nat) :
    ((sr.Read n).2).rewindWithoutReset = sr.rewindWithoutReset := by
  unfold StoppableReader.Read
  split
  · rfl
  · rw [readCurrent_rewindWithoutReset, pruneIfNeeded_rewindWithoutReset]

/-- A `Read` against an exhausted, non-rewound, non-stopped reader reports
end-of-stream with no data. -/
lemma Read_eof (sr : StoppableReader) (n : Nat) (h1 : sr.replay = [])
    (h2 : sr.source = []) (h3 : sr.pauseRead = false) :
    (sr.Read n).1 = ([], true) := by
  unfold StoppableReader.Read StoppableReader.readCurrent
  simp [h1, h2, h3]

/-! ### The shape of states reachable by `Read`-only traces

With no `Stop`/`Rewind`/`Reset` call, a reader built by `NewStoppableReader`
over `src` is always of the following shape: `k` bytes have been consumed
from the source and the history buffer holds the consumed bytes except for
`d` pruned ones at the front. -/

/-- The state of a fresh reader over `src` after consuming `k` bytes with
`d` of them pruned away. -/
def passState (src : List Nat) (mx k d : Nat) : StoppableReader :=
  { source := src.drop k
    buffer := (src.take k).drop d
    bufferStartOffset := (d : Int)
    maxBufferSize := mx
    bufferSizeFactor := 2
    replay := []
    pauseRead := false
    rewindWithoutReset := false }

@[simp] lemma passState_source (src : List Nat) (mx k d : Nat) :
    (passState src mx k d).source = src.drop k := rfl

@[simp] lemma passState_buffer (src : List Nat) (mx k d : Nat) :
    (passState src mx k d).buffer = (src.take k).drop d := rfl

@[simp] lemma passState_bufferStartOffset (src : List Nat) (mx k d : Nat) :
    (passState src mx k d).bufferStartOffset = (d : Int) := rfl

@[simp] lemma passState_maxBufferSize (src : List Nat) (mx k d : Nat) :
    (passState src mx k d).maxBufferSize = mx := rfl

@[simp] lemma passState_bufferSizeFactor (src : List Nat) (mx k d : Nat) :
    (passState src mx k d).bufferSizeFactor = 2 := rfl

@[simp] lemma passState_replay (src : List Nat) (mx k d : Nat) :
    (passState src mx k d).replay = [] := rfl

@[simp] lemma passState_pauseRead (src : List Nat) (mx k d : Nat) :
    (passState src mx k d).pauseRead = false := rfl

@[simp] lemma passState_rewindWithoutReset (src : List Nat) (mx k d : Nat) :
    (passState src mx k d).rewindWithoutReset = false := rfl

lemma passState_buffer_length (src : List Nat) (mx k d : Nat) (hk : k ≤ src.length) :
    (passState src mx k d).buffer.length = k - d := by
  simp [passState, Nat.min_eq_left hk]

lemma NewStoppableReader_eq (src : List Nat) (mx : Nat) :
    NewStoppableReader src mx = passState src mx 0 0 := by
  simp [NewStoppableReader, passState]

/-- Pruning a pass-through state keeps its shape: either nothing happens, or
the oldest bytes are dropped so that exactly `mx` bytes remain. -/
lemma pruneIfNeeded_passState (src : List Nat) (mx k d : Nat)
    (hk : k ≤ src.length) (hd : d ≤ k) :
    (passState src mx k d).pruneIfNeeded =
      passState src mx k (if 2 * mx < k - d then k - mx else d) := by
  have hlen : ((src.take k).drop d).length = k - d := by
    simp [Nat.min_eq_left hk]
  unfold StoppableReader.pruneIfNeeded
  simp only [passState_buffer, passState_bufferSizeFactor, passState_maxBufferSize,
    passState_bufferStartOffset, hlen]
  split
  case isTrue h =>
    simp only [passState, StoppableReader.mk.injEq, and_true, true_and]
    refine ⟨?_, ?_⟩
    · rw [List.drop_drop]
      congr 1
      omega
    · omega
  case isFalse h =>
    rfl

/-- One `Read` call on a pass-through state: the returned bytes are the next
(up to) `n` bytes of the source, EOF is reported exactly when the source is
exhausted, and the state keeps the pass-through shape. -/
lemma passState_Read (src : List Nat) (mx k d n : Nat)
    (hk : k ≤ src.length) (hd : d ≤ k) (hmin : min k mx ≤ k - d) :
    ∃ k' d', k' ≤ src.length ∧ d' ≤ k' ∧ min k' mx ≤ k' - d' ∧ k ≤ k' ∧
      k' - k = min n (src.length - k) ∧
      (passState src mx k d).Read n =
        (((src.drop k).take n, decide (src.length ≤ k)), passState src mx k' d') := by
  have hprune := pruneIfNeeded_passState src mx k d hk hd
  set d1 := if 2 * mx < k - d then k - mx else d with hd1
  have hd1k : d1 ≤ k := by
    rw [hd1]; split <;> omega
  have hmin1 : min k mx ≤ k - d1 := by
    rw [hd1]; split <;> omega
  have hread : (passState src mx k d).Read n =
      (passState src mx k d1).readCurrent n := by
    unfold StoppableReader.Read
    rw [hprune]
    simp only [passState_pauseRead, Bool.false_eq_true, if_false]
  by_cases hsrc : src.drop k = []
  · have hlen : src.length ≤ k := by
      rw [← List.drop_eq_nil_iff]; exact hsrc
    refine ⟨k, d1, hk, hd1k, hmin1, le_refl k, by omega, ?_⟩
    rw [hread]
    unfold StoppableReader.readCurrent
    simp [hsrc, hlen]
  · have hlt : k < src.length := by
      rcases Nat.lt_or_ge k src.length with h | h
      · exact h
      · exact absurd (List.drop_eq_nil_of_le h) hsrc
    refine ⟨k + min n (src.length - k), d1, by omega, by omega, by omega, by omega,
      by omega, ?_⟩
    have hsource : (src.drop k).drop n = src.drop (k + min n (src.length - k)) := by
      rw [List.drop_drop]
      rcases le_or_lt n (src.length - k) with h | h
      · congr 1; omega
      · have e1 : src.drop (k + n) = [] := List.drop_eq_nil_of_le (by omega)
        have e2 : src.drop (k + min n (src.length - k)) = [] :=
          List.drop_eq_nil_of_le (by omega)
        rw [e1, e2]
    have hbuffer : (src.take k).drop d1 ++ (src.drop k).take n =
        (src.take (k + min n (src.length - k))).drop d1 := by
      have hlen1 : d1 ≤ (src.take k).length := by
        simp [Nat.min_eq_left hk]; omega
      rw [List.take_add, List.drop_append_of_le_length hlen1]
      congr 1
      rw [List.take_eq_take]
      simp
    have hdec : decide (src.length ≤ k) = false := by
      simp; omega
    rw [hread]
    unfold StoppableReader.readCurrent
    simp only [passState_replay, passState_source, passState_buffer, hsrc,
      ne_eq, not_false_eq_true, not_true, if_true, if_false, hdec,
      passState, StoppableReader.mk.injEq, Prod.mk.injEq, true_and, and_true]
    exact ⟨hsource, hbuffer⟩

/-- A `Read`-only trace starting from a pass-through state stays in
pass-through shape and returns exactly the consecutive source bytes
`b_k .. b_{k'-1}`. -/
lemma readMany_passState (src : List Nat) (mx : Nat) (cs : List Nat) :
    ∀ k d, k ≤ src.length → d ≤ k → min k mx ≤ k - d →
    ∃ k' d', k' ≤ src.length ∧ d' ≤ k' ∧ min k' mx ≤ k' - d' ∧ k ≤ k' ∧
      readMany (passState src mx k d) cs =
        ((src.drop k).take (k' - k), passState src mx k' d') := by
  induction cs with
  | nil =>
    intro k d hk hd hmin
    exact ⟨k, d, hk, hd, hmin, le_refl k, by simp [readMany]⟩
  | cons n ns ih =>
    intro k d hk hd hmin
    obtain ⟨k1, d1, hk1, hd1, hmin1, hkk1, hk1k, hstep⟩ :=
      passState_Read src mx k d n hk hd hmin
    obtain ⟨k2, d2, hk2, hd2, hmin2, hk1k2, hrest⟩ := ih k1 d1 hk1 hd1 hmin1
    refine ⟨k2, d2, hk2, hd2, hmin2, by omega, ?_⟩
    unfold readMany
    rw [hstep]
    simp only [hrest]
    refine Prod.ext ?_ rfl
    simp only
    have h1 : (src.drop k).take n = (src.drop k).take (k1 - k) := by
      rw [List.take_eq_take]
      simp
      omega
    have h2 : src.drop k1 = (src.drop k).drop (k1 - k) := by
      rw [List.drop_drop]
      congr 1
      omega
    rw [h1, h2, ← List.take_add]
    congr 1
    omega

/-- Any `Read`-only trace from a freshly constructed reader: the bytes
returned are a prefix of the source and the final state is a pass-through
state over the same source. -/
lemma readMany_new (src : List Nat) (mx : Nat) (cs : List Nat) :
    ∃ k d, k ≤ src.length ∧ d ≤ k ∧ min k mx ≤ k - d ∧
      readMany (NewStoppableReader src mx) cs = (src.take k, passState src mx k d) := by
  obtain ⟨k, d, hk, hd, hmin, _, h⟩ :=
    readMany_passState src mx cs 0 0 (Nat.zero_le _) (le_refl 0) (by simp)
  refine ⟨k, d, hk, hd, hmin, ?_⟩
  rw [NewStoppableReader_eq, h]
  simp

/-! ### Draining a reader to end-of-stream -/

lemma Read_replay_case (sr : StoppableReader) (n : Nat)
    (hp : sr.pauseRead = false) (hr : sr.replay ≠ []) :
    sr.Read n = ((sr.replay.take n, false),
      { sr.pruneIfNeeded with replay := sr.replay.drop n }) := by
  unfold StoppableReader.Read StoppableReader.readCurrent
  simp [hp, hr]

lemma Read_live_case (sr : StoppableReader) (n : Nat)
    (hp : sr.pauseRead = false) (hr : sr.replay = []) (hs : sr.source ≠ []) :
    sr.Read n = ((sr.source.take n, false),
      { sr.pruneIfNeeded with
        source := sr.source.drop n
        buffer := sr.pruneIfNeeded.buffer ++ sr.source.take n }) := by
  unfold StoppableReader.Read StoppableReader.readCurrent
  simp [hp, hr, hs]

lemma Read_exhausted_case (sr : StoppableReader) (n : Nat)
    (hp : sr.pauseRead = false) (hr : sr.replay = []) (hs : sr.source = []) :
    sr.Read n = (([], true), sr.pruneIfNeeded) := by
  unfold StoppableReader.Read StoppableReader.readCurrent
  simp [hp, hr, hs]

/-- Draining with enough fuel returns the remaining rewind snapshot followed
by all remaining live bytes, ending in a state where both are exhausted. -/
lemma drainFuel_spec : ∀ (fuel : Nat) (sr : StoppableReader) (n : Nat),
    0 < n → sr.pauseRead = false →
    sr.replay.length + sr.source.length < fuel →
    (drainFuel fuel sr n).1 = sr.replay ++ sr.source ∧
    (drainFuel fuel sr n).2.replay = [] ∧
    (drainFuel fuel sr n).2.source = [] ∧
    (drainFuel fuel sr n).2.pauseRead = false := by
  intro fuel
  induction fuel with
  | zero =>
    intro sr n _ _ hf
    omega
  | succ fuel ih =>
    intro sr n hn hp hf
    by_cases hr : sr.replay = []
    · by_cases hs : sr.source = []
      · unfold drainFuel
        rw [Read_exhausted_case sr n hp hr hs]
        simp [hr, hs, hp]
      · unfold drainFuel
        rw [Read_live_case sr n hp hr hs]
        simp only [Bool.false_eq_true, if_false]
        obtain ⟨h1, h2, h3, h4⟩ := ih
          { sr.pruneIfNeeded with
            source := sr.source.drop n
            buffer := sr.pruneIfNeeded.buffer ++ sr.source.take n } n hn (by simp [hp])
          (by
            have hlen : sr.source.length ≠ 0 := by
              simpa [List.length_eq_zero] using hs
            simp only [hr, List.length_nil, Nat.zero_add] at hf
            simp [pruneIfNeeded_replay, hr]
            omega)
        refine ⟨?_, h2, h3, h4⟩
        rw [h1]
        simp [pruneIfNeeded_replay, hr, List.take_append_drop]
    · unfold drainFuel
      rw [Read_replay_case sr n hp hr]
      simp only [Bool.false_eq_true, if_false]
      obtain ⟨h1, h2, h3, h4⟩ := ih
        { sr.pruneIfNeeded with replay := sr.replay.drop n } n hn (by simp [hp])
        (by
          have hlen : sr.replay.length ≠ 0 := by
            simpa [List.length_eq_zero] using hr
          simp
          omega)
      refine ⟨?_, h2, h3, h4⟩
      rw [h1]
      simp only [pruneIfNeeded_source]
      rw [← List.append_assoc, List.take_append_drop]

/-! ### Characterizations of `Rewind` by branch -/

/-- An in-range `Rewind`: the error reports only the double-rewind guard, and
the new state carries the replay snapshot `buffer[offset-start:]`; with
`resetTimeZero` the start offset becomes `-(buffer length)` (the Go formula
`-(adjustedOffset + len - adjustedOffset)`). -/
lemma Rewind_in_range (sr : StoppableReader) (off : Int) (rtz : Bool)
    (h1 : sr.bufferStartOffset ≤ off)
    (h2 : off ≤ sr.bufferStartOffset + sr.buffer.length) :
    (sr.Rewind off rtz).1 =
      (if sr.rewindWithoutReset then some RewindError.doubleRewind else none) ∧
    (sr.Rewind off rtz).2 =
      (if rtz then
        { sr with
          rewindWithoutReset := true
          replay := sr.buffer.drop (off - sr.bufferStartOffset).toNat
          bufferStartOffset := -(sr.buffer.length : Int) }
      else
        { sr with
          rewindWithoutReset := true
          replay := sr.buffer.drop (off - sr.bufferStartOffset).toNat }) := by
  obtain ⟨so, bu, o0, mxx, fa, rp, pr, rg⟩ := sr
  simp only at h1 h2
  unfold StoppableReader.Rewind StoppableReader.installCursor
    StoppableReader.rewindAdjustedOffset
  dsimp only
  have hc1 : ¬(off < o0) := by omega
  have hc2 : ¬(o0 + (bu.length : Int) < off) := by omega
  rw [if_neg hc1, if_neg hc2, if_neg hc1]
  constructor
  · split <;> rfl
  · split
    · simp only [StoppableReader.mk.injEq, true_and, and_true]
      omega
    · rfl

/-- A future-offset `Rewind`: invalid-offset error, guard set, cursor reset
to plain live-passthrough. -/
lemma Rewind_future (sr : StoppableReader) (off : Int) (rtz : Bool)
    (h : sr.bufferStartOffset + sr.buffer.length < off) :
    sr.Rewind off rtz =
      (some RewindError.invalidOffset,
        { sr with rewindWithoutReset := true, replay := [] }) := by
  obtain ⟨so, bu, o0, mxx, fa, rp, pr, rg⟩ := sr
  simp only at h
  unfold StoppableReader.Rewind
  dsimp only
  have hc1 : ¬(off < o0) := by omega
  have hc2 : o0 + (bu.length : Int) < off := h
  rw [if_neg hc1, if_pos hc2]

/-! ### Claim theorems -/

/-- Claim C5: after one or more consecutive `Stop()` calls, exactly one
subsequent `Read` returns 0 bytes with EOF — clearing the latch without
touching the source and without pruning the buffer (the state is exactly the
pre-`Stop` state again) — and the `Read` after that behaves as if `Stop` had
never been called; consecutive `Stop()` calls collapse into one. -/
theorem stop_one_shot (sr : StoppableReader) (n m : Nat)
    (h : sr.pauseRead = false) :
    sr.Stop.Stop = sr.Stop ∧
    sr.Stop.Read n = (([], true), sr) ∧
    ((sr.Stop.Read n).2).Read m = sr.Read m := by
  have h2 : sr.Stop.Read n = (([], true), sr) := by
    obtain ⟨so, bu, o0, mxx, fa, rp, pr, rg⟩ := sr
    simp only at h
    subst h
    rfl
  exact ⟨rfl, h2, by rw [h2]⟩

/-- Witness for C5 at a concrete reader. -/
theorem stop_one_shot_witness :
    (NewStoppableReader [1, 2, 3] 4).Stop.Read 2 =
      (([], true), NewStoppableReader [1, 2, 3] 4) :=
  (stop_one_shot (NewStoppableReader [1, 2, 3] 4) 2 2 rfl).2.1

/-- Claim C6: on a `Read` with the stop latch clear and
`buffer length > sizeFactor (2) * maxBufferSize`, the buffer is pruned before
any new bytes are read, down to exactly `maxBufferSize` bytes by discarding
the oldest bytes, the start offset advances by exactly the number of bytes
dropped, and every retained byte keeps its absolute stream position
(new index `i` holds the old byte at index `dropped + i`, at the same
absolute position). -/
theorem read_prunes_exactly (sr : StoppableReader) (n : Nat)
    (hp : sr.pauseRead = false) (hf : sr.bufferSizeFactor = 2)
    (hlen : 2 * sr.maxBufferSize < sr.buffer.length) :
    sr.Read n = sr.pruneIfNeeded.readCurrent n ∧
    sr.pruneIfNeeded.buffer =
      sr.buffer.drop (sr.buffer.length - sr.maxBufferSize) ∧
    sr.pruneIfNeeded.buffer.length = sr.maxBufferSize ∧
    sr.pruneIfNeeded.bufferStartOffset =
      sr.bufferStartOffset + ((sr.buffer.length - sr.maxBufferSize : Nat) : Int) ∧
    ∀ i : Nat,
      sr.pruneIfNeeded.buffer[i]? =
        sr.buffer[(sr.buffer.length - sr.maxBufferSize) + i]? ∧
      sr.pruneIfNeeded.bufferStartOffset + (i : Int) =
        sr.bufferStartOffset +
          (((sr.buffer.length - sr.maxBufferSize) + i : Nat) : Int) := by
  have hcond : sr.bufferSizeFactor * sr.maxBufferSize < sr.buffer.length := by
    rw [hf]; omega
  have hpr : sr.pruneIfNeeded =
      { sr with
        buffer := sr.buffer.drop (sr.buffer.length - sr.maxBufferSize)
        bufferStartOffset :=
          sr.bufferStartOffset + ((sr.buffer.length - sr.maxBufferSize : Nat) : Int) } := by
    unfold StoppableReader.pruneIfNeeded
    rw [if_pos hcond]
  refine ⟨?_, ?_, ?_, ?_, ?_⟩
  · unfold StoppableReader.Read
    rw [if_neg (by simp [hp])]
  · rw [hpr]
  · rw [hpr]
    simp only [List.length_drop]
    omega
  · rw [hpr]
  · intro i
    rw [hpr]
    refine ⟨?_, ?_⟩
    · simp [List.getElem?_drop]
    · simp only
      push_cast
      omega

/-- Witness for C6 at a concrete reader whose buffer is over the threshold. -/
theorem read_prunes_exactly_witness :
    (⟨[7, 8], [1, 2, 3, 4, 5], 0, 2, 2, [], false, false⟩ :
      StoppableReader).pruneIfNeeded.buffer.length = 2 :=
  (read_prunes_exactly
    (⟨[7, 8], [1, 2, 3, 4, 5], 0, 2, 2, [], false, false⟩ : StoppableReader)
    1 rfl rfl (by decide)).2.2.1

/-- Counterexample to claim C2 as stated: rewinding to an already-pruned
offset does NOT put the reader into plain live-passthrough.  With source
`[1..6]` and `maxBufferSize = 2`, after reading 5 bytes and then 1 byte the
buffer has been pruned to `[4,5,6]` with start offset 3; `Rewind 1` returns
the data-loss error, but the next `Read` returns the replayed history bytes
`[4,5,6]` even though the source is exhausted (a live-passthrough read would
return 0 bytes and EOF). -/
theorem rewind_dataLoss_counterexample :
    ((((NewStoppableReader [1, 2, 3, 4, 5, 6] 2).Read 5).2.Read 1).2.Rewind
        1 false).1 = some RewindError.dataLoss ∧
    ((((NewStoppableReader [1, 2, 3, 4, 5, 6] 2).Read 5).2.Read 1).2.Rewind
        1 false).2.source = [] ∧
    (((((NewStoppableReader [1, 2, 3, 4, 5, 6] 2).Read 5).2.Read 1).2.Rewind
        1 false).2.Read 3).1 = ([4, 5, 6], false) := by
  decide

/-- Claim C2 (amended): for an offset before the Buffer Start Offset,
`Rewind` returns the data-loss error and clamps the rewind to the start of
the retained buffer: it installs a replay-then-live cursor over the ENTIRE
history buffer (as much buffered context as possible), not plain
live-passthrough. -/
theorem rewind_dataLoss_best_effort (sr : StoppableReader) (off : Int)
    (rtz : Bool) (h : off < sr.bufferStartOffset) :
    (sr.Rewind off rtz).1 = some RewindError.dataLoss ∧
    (sr.Rewind off rtz).2.replay = sr.buffer := by
  obtain ⟨so, bu, o0, mxx, fa, rp, pr, rg⟩ := sr
  simp only at h
  unfold StoppableReader.Rewind StoppableReader.installCursor
    StoppableReader.rewindAdjustedOffset
  simp only [if_pos h]
  split
  · simp
  · simp

/-- Witness for the amended C2 at a concrete reader. -/
theorem rewind_dataLoss_best_effort_witness :
    ((⟨[], [4, 5, 6], 3, 2, 2, [], false, false⟩ :
        StoppableReader).Rewind 1 false).2.replay = [4, 5, 6] :=
  (rewind_dataLoss_best_effort
    (⟨[], [4, 5, 6], 3, 2, 2, [], false, false⟩ : StoppableReader)
    1 false (by decide)).2

/-- Claim C3 evaluated at its failing input: with source `"ABCDEFGHIJ"`,
`maxBufferSize = 20`, after reading 6 bytes, `Rewind 2 true` sets
`bufferStartOffset` to `-(adjustedOffset + len - adjustedOffset) = -6`
(minus the full buffer length, so the END of the buffer becomes the new
zero), not to `-adjustedOffset = -2` as the claim — and the code's own
documentation ("the start of the last rewound stream [is] zero") —
require. -/
theorem resetTimeZero_formula_bug :
    (((NewStoppableReader [65, 66, 67, 68, 69, 70, 71, 72, 73, 74] 20).Read
        6).2.Rewind 2 true).2.bufferStartOffset = -6 ∧
    (((NewStoppableReader [65, 66, 67, 68, 69, 70, 71, 72, 73, 74] 20).Read
        6).2.Rewind 2 true).2.bufferStartOffset ≠
      -(((NewStoppableReader [65, 66, 67, 68, 69, 70, 71, 72, 73, 74] 20).Read
        6).2.rewindAdjustedOffset 2) := by
  decide

/-- Claim C7: a second `Rewind` (with an in-range offset) without an
intervening `Reset` returns the double-rewind error while still performing
the rewind — the resulting state is exactly the state an error-free rewind
from the same configuration would produce — and the guard flag stays set
through the rewind and later `Read`s; only `Reset` clears it. -/
theorem double_rewind_guard (sr : StoppableReader) (off : Int) (rtz : Bool)
    (n : Nat) (hg : sr.rewindWithoutReset = true)
    (h1 : sr.bufferStartOffset ≤ off)
    (h2 : off ≤ sr.bufferStartOffset + sr.buffer.length) :
    (sr.Rewind off rtz).1 = some RewindError.doubleRewind ∧
    (sr.Rewind off rtz).2 =
      (({ sr with rewindWithoutReset := false }).Rewind off rtz).2 ∧
    (({ sr with rewindWithoutReset := false }).Rewind off rtz).1 = none ∧
    (sr.Rewind off rtz).2.rewindWithoutReset = true ∧
    (((sr.Rewind off rtz).2).Read n).2.rewindWithoutReset = true ∧
    sr.Reset.rewindWithoutReset = false := by
  obtain ⟨e1, e2⟩ := Rewind_in_range sr off rtz h1 h2
  obtain ⟨e3, e4⟩ :=
    Rewind_in_range ({ sr with rewindWithoutReset := false }) off rtz h1 h2
  have hg4 : (sr.Rewind off rtz).2.rewindWithoutReset = true := by
    rw [e2]; split <;> rfl
  refine ⟨?_, ?_, ?_, hg4, ?_, rfl⟩
  · rw [e1]; simp [hg]
  · rw [e2, e4]
  · rw [e3]; simp
  · rw [Read_rewindWithoutReset]; exact hg4

/-- Witness for C7: the second of two consecutive rewinds on a concrete
reader returns the double-rewind error. -/
theorem double_rewind_guard_witness :
    ((((NewStoppableReader [1, 2, 3] 5).Read 2).2.Rewind 0 false).2.Rewind
        1 false).1 = some RewindError.doubleRewind :=
  (double_rewind_guard
    (((NewStoppableReader [1, 2, 3] 5).Read 2).2.Rewind 0 false).2
    1 false 2 (by decide) (by decide) (by decide)).1

/-- Claim C10: a `Rewind` that fails with the future-offset (invalid-offset)
error still sets the rewind-without-reset guard before returning, so a
subsequent in-range `Rewind` made before any `Reset` receives the
double-rewind error. -/
theorem failed_rewind_sets_guard (sr : StoppableReader) (off off2 : Int)
    (rtz rtz2 : Bool) (h1 : sr.rewindWithoutReset = false)
    (h2 : sr.bufferStartOffset + sr.buffer.length < off)
    (h3 : sr.bufferStartOffset ≤ off2)
    (h4 : off2 ≤ sr.bufferStartOffset + sr.buffer.length) :
    (sr.Rewind off rtz).1 = some RewindError.invalidOffset ∧
    (sr.Rewind off rtz).2.rewindWithoutReset = true ∧
    (((sr.Rewind off rtz).2).Rewind off2 rtz2).1 =
      some RewindError.doubleRewind := by
  have e1 := Rewind_future sr off rtz h2
  refine ⟨by rw [e1], by rw [e1], ?_⟩
  rw [e1]
  obtain ⟨e2, _⟩ := Rewind_in_range
    ({ sr with rewindWithoutReset := true, replay := [] }) off2 rtz2 h3 h4
  rw [e2]
  rfl

/-- Witness for C10 at a concrete reader: a future-offset rewind followed by
an in-range rewind. -/
theorem failed_rewind_sets_guard_witness :
    (((NewStoppableReader [1, 2] 9).Rewind 5 false).2.Rewind 0 false).1 =
      some RewindError.doubleRewind :=
  (failed_rewind_sets_guard (NewStoppableReader [1, 2] 9) 5 0 false false
    rfl (by decide) (by decide) (by decide)).2.2

/-- Claim C9: the buffer indexing of the operations stays in bounds — the
`adjustedOffset` used for the slice `buffer[adjustedOffset:]` taken by
`Rewind` satisfies `0 ≤ adjustedOffset ≤ buffer length` whenever that slice
is reached (an offset past the end instead returns the invalid-offset error
without slicing), and the pruning slice `buffer[len-max:]` of `Read` is
likewise within bounds, leaving exactly `maxBufferSize` bytes. -/
theorem rewind_index_bounds (sr : StoppableReader) (off : Int) (rtz : Bool)
    (hf : sr.bufferSizeFactor = 2) :
    (off ≤ sr.bufferStartOffset + sr.buffer.length →
      0 ≤ sr.rewindAdjustedOffset off ∧
      sr.rewindAdjustedOffset off ≤ (sr.buffer.length : Int)) ∧
    (sr.bufferStartOffset + sr.buffer.length < off →
      (sr.Rewind off rtz).1 = some RewindError.invalidOffset ∧
      (sr.Rewind off rtz).2.replay = []) ∧
    (2 * sr.maxBufferSize < sr.buffer.length →
      sr.buffer.length - sr.maxBufferSize ≤ sr.buffer.length ∧
      sr.pruneIfNeeded.buffer.length = sr.maxBufferSize) := by
  refine ⟨?_, ?_, ?_⟩
  · intro h
    unfold StoppableReader.rewindAdjustedOffset
    split <;> constructor <;> omega
  · intro h
    rw [Rewind_future sr off rtz h]
    exact ⟨rfl, rfl⟩
  · intro h
    constructor
    · omega
    · unfold StoppableReader.pruneIfNeeded
      rw [if_pos (by rw [hf]; omega)]
      simp only [List.length_drop]
      omega

/-- Witness for C9 at a concrete reader with a non-empty buffer. -/
theorem rewind_index_bounds_witness :
    0 ≤ (((NewStoppableReader [1, 2, 3] 5).Read 2).2).rewindAdjustedOffset 1 ∧
    (((NewStoppableReader [1, 2, 3] 5).Read 2).2).rewindAdjustedOffset 1 ≤
      ((((NewStoppableReader [1, 2, 3] 5).Read 2).2).buffer.length : Int) :=
  ((rewind_index_bounds (((NewStoppableReader [1, 2, 3] 5).Read 2).2)
    1 false rfl).1) (by decide)

/-- With no rewind pending and no stop latched, the bytes produced by a
sequence of `Read`s equal the bytes produced by the same sequence of reads
against the bare source. -/
lemma readMany_live (cs : List Nat) : ∀ (sr : StoppableReader),
    sr.replay = [] → sr.pauseRead = false →
    (readMany sr cs).1 = (sourceReadMany sr.source cs).1 := by
  induction cs with
  | nil =>
    intro sr _ _
    rfl
  | cons n ns ih =>
    intro sr h1 h2
    by_cases hs : sr.source = []
    · unfold readMany sourceReadMany sourceRead
      rw [Read_exhausted_case sr n h2 h1 hs, if_pos hs]
      simp only [List.nil_append]
      have hnext := ih sr.pruneIfNeeded (by simp [h1]) (by simp [h2])
      rw [hnext, pruneIfNeeded_source]
    · unfold readMany sourceReadMany sourceRead
      rw [Read_live_case sr n h2 h1 hs, if_neg hs]
      simp only
      have hnext := ih
        { sr.pruneIfNeeded with
          source := sr.source.drop n
          buffer := sr.pruneIfNeeded.buffer ++ sr.source.take n }
        (by simp [h1]) (by simp [h2])
      rw [hnext]

/-- Claim C8: with no `Stop`/`Rewind` calls, reading through the
`StoppableReader` yields byte-for-byte the same sequence, in the same order,
as reading directly from the wrapped source with the same slice sizes. -/
theorem passthrough_fidelity (src : List Nat) (mx : Nat) (cs : List Nat) :
    (readMany (NewStoppableReader src mx) cs).1 = (sourceReadMany src cs).1 :=
  readMany_live cs (NewStoppableReader src mx) rfl rfl

/-- Claim C4: after any `Read`-only trace, a rewind to any offset within
`maxBufferSize` bytes of the last read position succeeds with no error at
all (in particular no data-loss error): pruning never discards a byte of the
guaranteed window. -/
theorem prune_preserves_window (src : List Nat) (mx : Nat) (cs : List Nat)
    (j : Int) (rtz : Bool) (hj0 : 0 ≤ j)
    (hjw : ((src.length : Int) -
      ((readMany (NewStoppableReader src mx) cs).2.source.length : Int)) -
      (mx : Int) ≤ j)
    (hjk : j ≤ (src.length : Int) -
      ((readMany (NewStoppableReader src mx) cs).2.source.length : Int)) :
    ((readMany (NewStoppableReader src mx) cs).2.Rewind j rtz).1 = none := by
  obtain ⟨k, d, hk, hd, hmin, heq⟩ := readMany_new src mx cs
  have hst : (readMany (NewStoppableReader src mx) cs).2 = passState src mx k d := by
    rw [heq]
  rw [hst] at hjw hjk ⊢
  have hsl : (passState src mx k d).source.length = src.length - k := by
    simp [passState]
  rw [hsl] at hjw hjk
  have hbl : (passState src mx k d).buffer.length = k - d :=
    passState_buffer_length src mx k d hk
  have hin1 : (passState src mx k d).bufferStartOffset ≤ j := by
    simp only [passState_bufferStartOffset]
    omega
  have hin2 : j ≤ (passState src mx k d).bufferStartOffset +
      (passState src mx k d).buffer.length := by
    simp only [passState_bufferStartOffset, hbl]
    omega
  obtain ⟨e1, _⟩ := Rewind_in_range (passState src mx k d) j rtz hin1 hin2
  rw [e1, passState_rewindWithoutReset]
  rfl

/-- Witness for C4 at a concrete trace: source `[1,2,3]`, `maxBufferSize 2`,
one read of 3 bytes, rewind to offset 1 (within the window of 2 bytes behind
position 3). -/
theorem prune_preserves_window_witness :
    ((readMany (NewStoppableReader [1, 2, 3] 2) [3]).2.Rewind 1 false).1 =
      none :=
  prune_preserves_window [1, 2, 3] 2 [3] 1 false (by decide) (by decide)
    (by decide)

/-- Claim C1: after any `Read`-only trace consuming `k` source bytes, if
offset `j ≤ k` has not been pruned away (`bufferStartOffset ≤ j`), then
after `Rewind j false` the subsequent reads yield exactly bytes
`b_j .. b_{k-1}` (the replay) followed by the continued live bytes
`b_k ...` — i.e. exactly `src.drop j`, with no byte duplicated or skipped
at the replay/live boundary — and then end-of-stream. -/
theorem rewind_replay_correct (src : List Nat) (mx : Nat) (cs : List Nat)
    (j fuel n : Nat) (hn : 0 < n) (hfuel : src.length < fuel)
    (hjs : (readMany (NewStoppableReader src mx) cs).2.bufferStartOffset ≤
      (j : Int))
    (hjk : (j : Int) ≤ (src.length : Int) -
      ((readMany (NewStoppableReader src mx) cs).2.source.length : Int)) :
    (drainFuel fuel
      ((readMany (NewStoppableReader src mx) cs).2.Rewind (j : Int) false).2
      n).1 = src.drop j ∧
    ((drainFuel fuel
      ((readMany (NewStoppableReader src mx) cs).2.Rewind (j : Int) false).2
      n).2.Read n).1 = ([], true) := by
  obtain ⟨k, d, hk, hd, hmin, heq⟩ := readMany_new src mx cs
  have hst : (readMany (NewStoppableReader src mx) cs).2 = passState src mx k d := by
    rw [heq]
  rw [hst] at hjs hjk ⊢
  have hsl : (passState src mx k d).source.length = src.length - k := by
    simp [passState]
  rw [hsl] at hjk
  simp only [passState_bufferStartOffset] at hjs
  have hdj : d ≤ j := by omega
  have hjk' : j ≤ k := by omega
  have hbl : (passState src mx k d).buffer.length = k - d :=
    passState_buffer_length src mx k d hk
  have hin2 : (j : Int) ≤ (passState src mx k d).bufferStartOffset +
      (passState src mx k d).buffer.length := by
    simp only [passState_bufferStartOffset, hbl]
    omega
  obtain ⟨_, e2⟩ := Rewind_in_range (passState src mx k d) (j : Int) false
    (by simp only [passState_bufferStartOffset]; omega) hin2
  rw [e2]
  simp only [Bool.false_eq_true, if_false]
  set s1 : StoppableReader :=
    { passState src mx k d with
      rewindWithoutReset := true
      replay := (passState src mx k d).buffer.drop
        ((j : Int) - (passState src mx k d).bufferStartOffset).toNat } with hs1
  have hreplay : s1.replay = (src.take k).drop j := by
    rw [hs1]
    simp only [passState_buffer, passState_bufferStartOffset]
    have htn : ((j : Int) - (d : Int)).toNat = j - d := by omega
    rw [htn, List.drop_drop]
    congr 1
    omega
  have hsource : s1.source = src.drop k := rfl
  have hpause : s1.pauseRead = false := rfl
  have hcard : s1.replay.length + s1.source.length < fuel := by
    rw [hreplay, hsource]
    simp only [List.length_drop, List.length_take]
    omega
  obtain ⟨o1, o2, o3, o4⟩ := drainFuel_spec fuel s1 n hn hpause hcard
  constructor
  · rw [o1, hreplay, hsource]
    have hsplit : src.drop j = (src.take k).drop j ++ src.drop k := by
      conv_lhs => rw [← List.take_append_drop k src]
      rw [List.drop_append_of_le_length (by simp [Nat.min_eq_left hk]; omega)]
    rw [hsplit]
  · exact Read_eof _ n o2 o3 o4

/-- Witness for C1: the example scenario of the spec — source
`"ABCDEFGHIJ"` (bytes 65..74), `maxHistoryBytes = 20`, one read of 6 bytes,
`Rewind(2, false)`, then draining yields `"CDEFGHIJ"` (67..74) and then
end-of-stream. -/
theorem rewind_replay_correct_witness :
    (drainFuel 11
      ((readMany (NewStoppableReader [65, 66, 67, 68, 69, 70, 71, 72, 73, 74]
        20) [6]).2.Rewind (2 : Int) false).2 4).1 =
      [67, 68, 69, 70, 71, 72, 73, 74] ∧
    ((drainFuel 11
      ((readMany (NewStoppableReader [65, 66, 67, 68, 69, 70, 71, 72, 73, 74]
        20) [6]).2.Rewind (2 : Int) false).2 4).2.Read 4).1 = ([], true) :=
  rewind_replay_correct [65, 66, 67, 68, 69, 70, 71, 72, 73, 74] 20 [6] 2 11 4
    (by decide) (by decide) (by decide) (by decide)

end Audio
